import Mathlib

/-!
Verification of the quota acquisition and normalization engine of
`src/components/quota/quotaConfigs.ts`.

The TypeScript source is shallowly embedded: JSON values become the `Json`
inductive, JavaScript nullish coalescing (`??`) becomes `jsCoalesce`, fallible
operations return `Option`/`Except`, and the Antigravity multi-attempt loop
becomes an explicit recursion over URL and body-variant indices.  External
collaborators that are not part of this file's source (the HTTP dispatcher,
`parseAntigravityPayload`, `buildAntigravityQuotaGroups`,
`formatCodexResetLabel`, the translation function `t`, the JavaScript `Date`
parser) are abstracted as function parameters; utility normalizers that live
in `@/utils/quota` (absent from the sources) are modelled from the spec and
marked as such in their doc comments.
-/

/-- JSON values as produced by `JSON.parse`: null, booleans, numbers (modelled
as rationals, since every comparison in the source is exact), strings, arrays
and objects. -/
inductive Json where
  | null : Json
  | bool (b : Bool) : Json
  | num (q : ℚ) : Json
  | str (s : String) : Json
  | arr (items : List Json) : Json
  | obj (fields : List (String × Json)) : Json

/-- JavaScript nullish coalescing `a ?? b` over possibly-absent JSON fields:
the right operand is used exactly when the left is absent (`undefined`) or
JSON `null`. -/
def jsCoalesce (a b : Option Json) : Option Json :=
  match a with
  | none => b
  | some Json.null => b
  | some v => some v

/-- JavaScript truthiness of a JSON value (`Boolean(v)`): `null`, `false`,
`0` and the empty string are falsy; arrays and objects are always truthy. -/
def jsTruthy : Json → Bool
  | Json.null => false
  | Json.bool b => b
  | Json.num q => !(q == 0)
  | Json.str s => !(s == "")
  | Json.arr _ => true
  | Json.obj _ => true

/-- JavaScript `typeof v === 'object'`: true for `null`, arrays and objects,
false for booleans, numbers and strings. -/
def jsTypeofIsObject : Json → Bool
  | Json.null => true
  | Json.arr _ => true
  | Json.obj _ => true
  | _ => false

/-- JavaScript `Array.isArray`. -/
def jsIsArray : Json → Bool
  | Json.arr _ => true
  | _ => false

/-- Property access `v.k` on a parsed JSON value: defined (first binding) on
objects carrying the key, `undefined` (`none`) otherwise — in particular on
numbers, strings and arrays, matching JavaScript member access on non-objects
coming out of `JSON.parse`. -/
def jsGet (v : Json) (key : String) : Option Json :=
  match v with
  | Json.obj fields => (fields.find? (fun p => p.1 == key)).map (·.2)
  | _ => none

/-- Guard `v && typeof v === 'object' && v !== null ? v : null` used by
`resolveAntigravityProjectId` (source lines 104-107 and 113-116). -/
def jsObjGuard (v : Option Json) : Option Json :=
  match v with
  | some x => if jsTruthy x && jsTypeofIsObject x then some x else none
  | none => none

/-- Whitespace trim over the character list (JavaScript `trim` restricted to
the blank characters that occur in practice), defined structurally so that
concrete credential texts evaluate. -/
def strTrim (s : String) : String :=
  String.mk
    (((s.data.dropWhile (fun c => c == ' ' || c == '\t' || c == '\n' || c == '\r')).reverse.dropWhile
        (fun c => c == ' ' || c == '\t' || c == '\n' || c == '\r')).reverse)

/-- Modelled from the spec: `normalizeStringValue` lives in `@/utils/quota`,
which is not among the sources.  Per the spec's NormalizationUtilities it
turns a loosely-typed JSON field into a typed string, tolerant of missing
data: a string value whose trimmed form is non-empty yields that trimmed
string, everything else (absent, null, non-string, blank) yields null. -/
def normalizeStringValue (v : Option Json) : Option String :=
  match v with
  | some (Json.str s) => if strTrim s == "" then none else some (strTrim s)
  | _ => none

/-- Modelled from the spec: `normalizeNumberValue` lives in `@/utils/quota`,
which is not among the sources.  It turns a loosely-typed JSON field into a
number or null.  It performs no clamping: the same normalizer is applied to
Unix timestamps (`expires_at`), quota amounts and percentages alike, and the
rendering layer clamps separately (source lines 635-636), so a clamp here
would be both wrong for timestamps and redundant for percentages. -/
def normalizeNumberValue (v : Option Json) : Option ℚ :=
  match v with
  | some (Json.num q) => some q
  | _ => none

/-- Modelled from the spec: `normalizeQuotaFraction` lives in
`@/utils/quota`, which is not among the sources.  Per the spec it normalizes
the remaining fraction "directly if present": a numeric field yields that
number, everything else yields null. -/
def normalizeQuotaFraction (v : Option Json) : Option ℚ :=
  match v with
  | some (Json.num q) => some q
  | _ => none

/-! ## GithubCopilot adapter: reset-date resolution (source lines 486-503)

`fetchGithubCopilotQuota` resolves `quotaResetDate` from four raw payload
fields.  The JavaScript `Date` parser is external runtime behaviour and is
abstracted as `parseDateMs : String → Option Int` returning epoch
milliseconds, `none` standing for `isNaN(parsedDate.getTime())`. -/

/-- Translation of source lines 487-503: prefer the ISO string field
(`quota_reset_date ?? quotaResetDate` run through `normalizeStringValue`);
when it is present, use `Math.floor(getTime() / 1000)` if it parses and leave
the result null if it does not; only when the string is absent fall back to
the legacy numeric field (`limited_user_reset_date ?? limitedUserResetDate`
run through `normalizeNumberValue`). -/
def resolveGithubCopilotResetDate (parseDateMs : String → Option Int)
    (quota_reset_date quotaResetDate limited_user_reset_date limitedUserResetDate : Option Json) :
    Option ℚ :=
  let quotaResetDateStr := normalizeStringValue (jsCoalesce quota_reset_date quotaResetDate)
  let limitedResetDate := normalizeNumberValue (jsCoalesce limited_user_reset_date limitedUserResetDate)
  match quotaResetDateStr with
  | some s =>
    match parseDateMs s with
    | some ms => some ((Int.fdiv ms 1000 : Int) : ℚ)
    | none => none
  | none => limitedResetDate

/-! ## Codex adapter: window construction (source lines 211-260)

`buildCodexQuotaWindows` builds up to three quota windows from the payload's
`rate_limit` and `code_review_rate_limit` sub-objects.  The reset-label
formatter `formatCodexResetLabel` is an external collaborator and is
abstracted as a parameter `fmt`; so is the translation function `t`. -/

/-- Raw usage window as consumed by `addWindow`: the two casings of the
percentage field, plus whatever reset fields `formatCodexResetLabel` reads
(opaque here, so they are not enumerated). -/
structure CodexUsageWindow where
  used_percent : Option Json
  usedPercent : Option Json

/-- Raw rate-limit sub-object of the Codex usage payload (both casings of
every field accessed by the source). -/
structure CodexRateLimit where
  primary_window : Option CodexUsageWindow
  primaryWindow : Option CodexUsageWindow
  secondary_window : Option CodexUsageWindow
  secondaryWindow : Option CodexUsageWindow
  limit_reached : Option Bool
  limitReached : Option Bool
  allowed : Option Bool

/-- Codex usage payload fields consumed by `buildCodexQuotaWindows`. -/
structure CodexUsagePayload where
  rate_limit : Option CodexRateLimit
  rateLimit : Option CodexRateLimit
  code_review_rate_limit : Option CodexRateLimit
  codeReviewRateLimit : Option CodexRateLimit

/-- Built quota window pushed into the result list (source lines 228-234). -/
structure CodexQuotaWindow where
  id : String
  label : String
  labelKey : String
  usedPercent : Option ℚ
  resetLabel : String

/-- Translation of `addWindow` (source lines 216-235): skip an absent window;
otherwise compute the reset label, normalize the payload percentage, derive
`isLimitReached = Boolean(limitReached) || allowed === false`, and set
`usedPercent = usedPercentRaw ?? (isLimitReached && resetLabel !== '-' ? 100 : null)`. -/
def addWindow (fmt : CodexUsageWindow → String) (t : String → String)
    (id labelKey : String) (window : Option CodexUsageWindow)
    (limitReached : Option Bool) (allowed : Option Bool) : Option CodexQuotaWindow :=
  match window with
  | none => none
  | some w =>
    let resetLabel := fmt w
    let usedPercentRaw := normalizeNumberValue (jsCoalesce w.used_percent w.usedPercent)
    let isLimitReached := (limitReached == some true) || (allowed == some false)
    let usedPercent :=
      usedPercentRaw.orElse
        (fun _ => if isLimitReached && !(resetLabel == "-") then some 100 else none)
    some { id := id, label := t labelKey, labelKey := labelKey,
           usedPercent := usedPercent, resetLabel := resetLabel }

/-- JavaScript `a ?? b` over plain optional (non-Json) values, where absence
is the only nullish case. -/
def optCoalesce {α : Type} (a b : Option α) : Option α :=
  match a with
  | some v => some v
  | none => b

/-- Translation of `buildCodexQuotaWindows` (source lines 211-260): resolve
the two rate-limit objects through both casings, then issue the three
`addWindow` calls (primary, secondary, code-review) and keep the windows that
were actually pushed. -/
def buildCodexQuotaWindows (fmt : CodexUsageWindow → String) (t : String → String)
    (payload : CodexUsagePayload) : List CodexQuotaWindow :=
  let rateLimit := optCoalesce payload.rate_limit payload.rateLimit
  let codeReviewLimit := optCoalesce payload.code_review_rate_limit payload.codeReviewRateLimit
  ([ addWindow fmt t "primary" "codex_quota.primary_window"
       (optCoalesce (rateLimit.bind (·.primary_window)) (rateLimit.bind (·.primaryWindow)))
       (optCoalesce (rateLimit.bind (·.limit_reached)) (rateLimit.bind (·.limitReached)))
       (rateLimit.bind (·.allowed)),
     addWindow fmt t "secondary" "codex_quota.secondary_window"
       (optCoalesce (rateLimit.bind (·.secondary_window)) (rateLimit.bind (·.secondaryWindow)))
       (optCoalesce (rateLimit.bind (·.limit_reached)) (rateLimit.bind (·.limitReached)))
       (rateLimit.bind (·.allowed)),
     addWindow fmt t "code-review" "codex_quota.code_review_window"
       (optCoalesce (codeReviewLimit.bind (·.primary_window)) (codeReviewLimit.bind (·.primaryWindow)))
       (optCoalesce (codeReviewLimit.bind (·.limit_reached)) (codeReviewLimit.bind (·.limitReached)))
       (codeReviewLimit.bind (·.allowed)) ]).filterMap id

/-- The three raw windows a payload can contribute, resolved exactly as the
three `addWindow` call sites resolve them; used to state which raw field a
surfaced `usedPercent` came from. -/
def codexCandidateWindows (payload : CodexUsagePayload) : List (Option CodexUsageWindow) :=
  let rateLimit := optCoalesce payload.rate_limit payload.rateLimit
  let codeReviewLimit := optCoalesce payload.code_review_rate_limit payload.codeReviewRateLimit
  [ optCoalesce (rateLimit.bind (·.primary_window)) (rateLimit.bind (·.primaryWindow)),
    optCoalesce (rateLimit.bind (·.secondary_window)) (rateLimit.bind (·.secondaryWindow)),
    optCoalesce (codeReviewLimit.bind (·.primary_window)) (codeReviewLimit.bind (·.primaryWindow)) ]

/-- The render-time clamp of a window's `usedPercent`
(`Math.max(0, Math.min(100, used))`, source line 635). -/
def codexRenderClampedUsed (u : Option ℚ) : Option ℚ :=
  u.map (fun x => max 0 (min 100 x))

/-! ## GeminiCli adapter: per-bucket parsing (source lines 335-360) -/

/-- Raw quota bucket from the GeminiCli payload (both casings of every field
the source reads). -/
structure GeminiRawBucket where
  modelId : Option Json
  model_id : Option Json
  tokenType : Option Json
  token_type : Option Json
  remainingFraction : Option Json
  remaining_fraction : Option Json
  remainingAmount : Option Json
  remaining_amount : Option Json
  resetTime : Option Json
  reset_time : Option Json

/-- Parsed bucket produced by the `.map` body (source lines 352-358). -/
structure GeminiParsedBucket where
  modelId : String
  tokenType : Option String
  remainingFraction : Option ℚ
  remainingAmount : Option ℚ
  resetTime : Option String

/-- Translation of the bucket-parsing closure (source lines 336-359): drop
the bucket when no model identifier normalizes; otherwise derive the fallback
fraction — `0` when a remaining amount is present and at most `0`, `null`
when it is present and positive, `0` when it is absent but a reset time is
present, `null` otherwise — and prefer the directly normalized fraction over
the fallback. -/
def parseGeminiCliBucket (b : GeminiRawBucket) : Option GeminiParsedBucket :=
  match normalizeStringValue (jsCoalesce b.modelId b.model_id) with
  | none => none
  | some modelId =>
    let tokenType := normalizeStringValue (jsCoalesce b.tokenType b.token_type)
    let remainingFractionRaw := normalizeQuotaFraction (jsCoalesce b.remainingFraction b.remaining_fraction)
    let remainingAmount := normalizeNumberValue (jsCoalesce b.remainingAmount b.remaining_amount)
    let resetTime := normalizeStringValue (jsCoalesce b.resetTime b.reset_time)
    let fallbackFraction : Option ℚ :=
      match remainingAmount with
      | some a => if a ≤ 0 then some 0 else none
      | none =>
        match resetTime with
        | some _ => some 0
        | none => none
    let remainingFraction := remainingFractionRaw.orElse (fun _ => fallbackFraction)
    some { modelId := modelId, tokenType := tokenType,
           remainingFraction := remainingFraction,
           remainingAmount := remainingAmount, resetTime := resetTime }

/-- Translation of the surrounding `.map`/`.filter` pipeline (source lines
335-360): parse every raw bucket and keep the survivors. -/
def parseGeminiCliBuckets (bs : List GeminiRawBucket) : List GeminiParsedBucket :=
  bs.filterMap parseGeminiCliBucket

/-! ## Antigravity adapter: attempt loop (source lines 126-209)

`fetchAntigravityQuota` tries every configured URL with two request bodies
(`{projectId}` then `{project: projectId}`), tracking the last error message,
the last non-2xx status, a priority status (first-seen 403/404) and whether
any attempt reached the server with a 2xx.

External pieces are abstracted: `bg` stands for
`buildAntigravityQuotaGroups`, `t` for the translation function, and
`env url attempt` for the outcome of issuing the request for body variant
`attempt` against `url` — either a settled response (status, error message as
computed by `getApiCallErrorMessage`, and the result of
`parseAntigravityPayload` on its body) or a rejected request (the `catch`
branch: message and the result of `getStatusFromError`). -/

/-- Quota group (the element type of `buildAntigravityQuotaGroups`' result,
per the spec's `AntigravityQuotaGroups` data model). -/
structure AGGroup where
  id : String
  label : String
  models : List String
  remainingFraction : ℚ
  resetTime : Option Json

/-- Parsed Antigravity payload: only its `models` field is consumed
(`payload?.models`, source line 178). -/
structure AGPayload where
  models : Option Json

/-- Outcome of one dispatched attempt. -/
inductive AGAttempt where
  | resp (statusCode : Int) (errMsg : String) (payload : Option AGPayload)
  | thrown (errMsg : Option String) (status : Option Int)

/-- Character-list prefix test used to express JavaScript
`String.prototype.includes`. -/
def charsPrefixTest : List Char → List Char → Bool
  | [], _ => true
  | _ :: _, [] => false
  | c :: cs, x :: xs => c == x && charsPrefixTest cs xs

/-- Character-list infix test used to express JavaScript
`String.prototype.includes`. -/
def charsInfixTest (sub : List Char) : List Char → Bool
  | [] => sub.isEmpty
  | x :: xs => charsPrefixTest sub (x :: xs) || charsInfixTest sub xs

/-- JavaScript `s.includes(sub)`. -/
def strIncludes (s sub : String) : Bool :=
  charsInfixTest sub.data s.data

/-- ASCII lowercasing of one character, defined structurally so that
concrete messages evaluate. -/
def charLower (c : Char) : Char :=
  if 'A' ≤ c ∧ c ≤ 'Z' then Char.ofNat (c.toNat + 32) else c

/-- JavaScript `toLowerCase` (restricted to ASCII, which covers every
message the unknown-field pattern is matched against). -/
def strToLower (s : String) : String :=
  String.mk (s.data.map charLower)

/-- Translation of `isAntigravityUnknownFieldError` (source lines 126-129):
the lower-cased message must contain both "unknown name" and
"cannot find field". -/
def isAntigravityUnknownFieldError (message : String) : Bool :=
  let normalized := strToLower message
  strIncludes normalized "unknown name" && strIncludes normalized "cannot find field"

/-- Translation of the models-field rejection test
`!models || typeof models !== 'object' || Array.isArray(models)`
(source line 179), with `none` standing for an absent field or a null
payload. -/
def antigravityModelsBad (models : Option Json) : Bool :=
  match models with
  | none => true
  | some m => !jsTruthy m || !jsTypeofIsObject m || jsIsArray m

/-- The `models` value the source reads: `payload?.models`. -/
def agModelsOf (payload : Option AGPayload) : Option Json :=
  payload.bind (·.models)

/-- Field list of a models object; only consulted after
`antigravityModelsBad` has ruled out every non-object shape. -/
def agModelsFields (models : Option Json) : List (String × Json) :=
  match models with
  | some (Json.obj fields) => fields
  | _ => []

/-- The loop's mutable locals (source lines 144-147). -/
structure AGLoopState where
  lastError : String
  lastStatus : Option Int
  priorityStatus : Option Int
  hadSuccess : Bool

/-- Initial values of the loop locals. -/
def agInitState : AGLoopState :=
  { lastError := "", lastStatus := none, priorityStatus := none, hadSuccess := false }

/-- The source's 2xx test (`statusCode < 200 || statusCode >= 300`, negated). -/
def is2xx (s : Int) : Bool :=
  (200 ≤ s) && (s < 300)

/-- Priority-status update `if (status === 403 || status === 404) priorityStatus ??= status`
(source lines 163-165 and 196-198). -/
def agRecordPriority (prio : Option Int) (s : Int) : Option Int :=
  if s == 403 || s == 404 then prio.orElse (fun _ => some s) else prio

/-- Number of request body variants: the source builds exactly two
(`{projectId}` and `{project: projectId}`, line 142). -/
def agBodyCount : Nat := 2

/-- What processing one attempt does to the loop: return the groups, continue
with the next body variant, or abandon the current URL. -/
inductive AGStep where
  | done (groups : List AGGroup)
  | contBody (st : AGLoopState)
  | breakUrl (st : AGLoopState)

/-- Translation of one iteration of the inner loop (source lines 151-200).
For a settled non-2xx response: record message/status/priority, then either
continue with the next body (status 400, unknown-field message, another body
variant untried) or break to the next URL.  For a settled 2xx response: set
`hadSuccess`, reject a bad `models` field with the empty-models message and
continue, build groups, continue on an empty group list, and return a
non-empty one.  For a rejected request: record the message (falling back to
the generic unknown-error text) and, when a truthy status is attached, the
status and priority; then continue with the next attempt. -/
def agStepAttempt (bg : List (String × Json) → List AGGroup) (t : String → String)
    (a : AGAttempt) (attempt : Nat) (st : AGLoopState) : AGStep :=
  match a with
  | AGAttempt.resp status errMsg payload =>
    if !is2xx status then
      let st1 : AGLoopState :=
        { lastError := errMsg, lastStatus := some status,
          priorityStatus := agRecordPriority st.priorityStatus status,
          hadSuccess := st.hadSuccess }
      if status == 400 && isAntigravityUnknownFieldError errMsg
          && decide (attempt < agBodyCount - 1) then
        AGStep.contBody st1
      else
        AGStep.breakUrl st1
    else
      let st1 : AGLoopState := { st with hadSuccess := true }
      let models := agModelsOf payload
      if antigravityModelsBad models then
        AGStep.contBody { st1 with lastError := t "antigravity_quota.empty_models" }
      else
        let groups := bg (agModelsFields models)
        if groups.length == 0 then
          AGStep.contBody { st1 with lastError := t "antigravity_quota.empty_models" }
        else
          AGStep.done groups
  | AGAttempt.thrown errMsg status =>
    let st1 : AGLoopState := { st with lastError := errMsg.getD (t "common.unknown_error") }
    let st2 : AGLoopState :=
      match status with
      | some s =>
        if !(s == 0) then
          { st1 with lastStatus := some s, priorityStatus := agRecordPriority st1.priorityStatus s }
        else st1
      | none => st1
    AGStep.contBody st2

/-- Result of running the attempt loop for one URL, or for the remaining
URLs: an early return with groups, or falling through with updated locals. -/
inductive AGRun where
  | found (groups : List AGGroup)
  | fell (st : AGLoopState)

/-- Inner loop over the remaining body-variant indices for one URL (source
line 150), instrumented: the second component records the attempts actually
executed, in order. -/
def agRunBodies (bg : List (String × Json) → List AGGroup) (t : String → String)
    (env : String → Nat → AGAttempt) (url : String) :
    List Nat → AGLoopState → AGRun × List AGAttempt
  | [], st => (AGRun.fell st, [])
  | i :: rest, st =>
    let a := env url i
    match agStepAttempt bg t a i st with
    | AGStep.done gs => (AGRun.found gs, [a])
    | AGStep.breakUrl st1 => (AGRun.fell st1, [a])
    | AGStep.contBody st1 =>
      let r := agRunBodies bg t env url rest st1
      (r.1, a :: r.2)

/-- Outer loop over the configured URLs (source line 149), instrumented with
the executed-attempt trace. -/
def agRunUrls (bg : List (String × Json) → List AGGroup) (t : String → String)
    (env : String → Nat → AGAttempt) :
    List String → AGLoopState → AGRun × List AGAttempt
  | [], st => (AGRun.fell st, [])
  | url :: rest, st =>
    match agRunBodies bg t env url (List.range agBodyCount) st with
    | (AGRun.found gs, tr) => (AGRun.found gs, tr)
    | (AGRun.fell st1, tr) =>
      let r := agRunUrls bg t env rest st1
      (r.1, tr ++ r.2)

/-- Translation of the whole attempt loop plus its epilogue (source lines
144-209): a non-empty group list returns immediately; otherwise an empty
success is returned when some attempt was 2xx, and a status-annotated error
(`lastError || t('common.unknown_error')`, `priorityStatus ?? lastStatus`) is
thrown otherwise. -/
def antigravityAttemptLoop (bg : List (String × Json) → List AGGroup) (t : String → String)
    (env : String → Nat → AGAttempt) (urls : List String) :
    Except (String × Option Int) (List AGGroup) :=
  match (agRunUrls bg t env urls agInitState).1 with
  | AGRun.found gs => Except.ok gs
  | AGRun.fell st =>
    if st.hadSuccess then Except.ok []
    else
      Except.error
        ((if st.lastError == "" then t "common.unknown_error" else st.lastError),
         st.priorityStatus.orElse (fun _ => st.lastStatus))

/-- The attempts the loop actually executed, in order. -/
def antigravityLoopTrace (bg : List (String × Json) → List AGGroup) (t : String → String)
    (env : String → Nat → AGAttempt) (urls : List String) : List AGAttempt :=
  (agRunUrls bg t env urls agInitState).2

/-! ## Antigravity project-id resolution (source lines 94-124)

The credential download and `JSON.parse` are external: the download is
represented by its outcome (`Except String String`, an error standing for a
rejected promise) and the parser by `parseJson : String → Option Json`
(`none` standing for a thrown parse error, which the `catch` absorbs). -/

/-- The fixed default project id (source line 63). -/
def DEFAULT_ANTIGRAVITY_PROJECT_ID : String := "bamboo-precept-lgxtn"

/-- Translation of `resolveAntigravityProjectId` (source lines 94-124):
download, trim, parse; then try `parsed.project_id ?? parsed.projectId`, the
same pair under an `installed` object guard, and the same pair under a `web`
object guard; every failure path (rejected download, blank text, parse error,
exhaustion) produces the fixed default and nothing is thrown. -/
def resolveAntigravityProjectId (parseJson : String → Option Json)
    (download : Except String String) : String :=
  match download with
  | Except.error _ => DEFAULT_ANTIGRAVITY_PROJECT_ID
  | Except.ok text =>
    let trimmed := strTrim text
    if trimmed == "" then DEFAULT_ANTIGRAVITY_PROJECT_ID
    else
      match parseJson trimmed with
      | none => DEFAULT_ANTIGRAVITY_PROJECT_ID
      | some parsed =>
        match normalizeStringValue (jsCoalesce (jsGet parsed "project_id") (jsGet parsed "projectId")) with
        | some topLevel => topLevel
        | none =>
          let installed := jsObjGuard (jsGet parsed "installed")
          match installed.bind
              (fun o => normalizeStringValue (jsCoalesce (jsGet o "project_id") (jsGet o "projectId"))) with
          | some installedProjectId => installedProjectId
          | none =>
            let web := jsObjGuard (jsGet parsed "web")
            match web.bind
                (fun o => normalizeStringValue (jsCoalesce (jsGet o "project_id") (jsGet o "projectId"))) with
            | some webProjectId => webProjectId
            | none => DEFAULT_ANTIGRAVITY_PROJECT_ID

/-- Nullish-coalescing lookup of an ordered alias list on one object
(the spec's "first present of ordered alias list" accessor). -/
def aliasLookup (o : Json) : List String → Option Json
  | [] => none
  | k :: rest => jsCoalesce (jsGet o k) (aliasLookup o rest)

/-- Formalisation of claim C9 exactly as stated: the first non-empty string
found by searching, in order, top-level `project_id`/`projectId`, then
`installed.project_id`, then `web.project_id`; the fixed default on download
failure, blank text, parse failure or exhaustion. -/
def claimedAntigravityProjectId (parseJson : String → Option Json)
    (download : Except String String) : String :=
  match download with
  | Except.error _ => DEFAULT_ANTIGRAVITY_PROJECT_ID
  | Except.ok text =>
    let trimmed := strTrim text
    if trimmed == "" then DEFAULT_ANTIGRAVITY_PROJECT_ID
    else
      match parseJson trimmed with
      | none => DEFAULT_ANTIGRAVITY_PROJECT_ID
      | some parsed =>
        (((normalizeStringValue (jsGet parsed "project_id")).orElse
            (fun _ => normalizeStringValue (jsGet parsed "projectId"))).orElse
          (fun _ => (normalizeStringValue ((jsGet parsed "installed").bind (fun o => jsGet o "project_id"))).orElse
            (fun _ => normalizeStringValue ((jsGet parsed "web").bind (fun o => jsGet o "project_id"))))).getD
          DEFAULT_ANTIGRAVITY_PROJECT_ID

/-- The amended search: per location the snake_case key is preferred and the
camelCase key consulted only when the former is absent or null (the `??`
semantics), the nested locations also consult the camelCase alias, and the
nested objects must pass the truthy-object guard. -/
def amendedAntigravityProjectId (parseJson : String → Option Json)
    (download : Except String String) : String :=
  match download with
  | Except.error _ => DEFAULT_ANTIGRAVITY_PROJECT_ID
  | Except.ok text =>
    let trimmed := strTrim text
    if trimmed == "" then DEFAULT_ANTIGRAVITY_PROJECT_ID
    else
      match parseJson trimmed with
      | none => DEFAULT_ANTIGRAVITY_PROJECT_ID
      | some parsed =>
        (((normalizeStringValue (aliasLookup parsed ["project_id", "projectId"])).orElse
            (fun _ => (jsObjGuard (jsGet parsed "installed")).bind
              (fun o => normalizeStringValue (aliasLookup o ["project_id", "projectId"])))).orElse
          (fun _ => (jsObjGuard (jsGet parsed "web")).bind
            (fun o => normalizeStringValue (aliasLookup o ["project_id", "projectId"])))).getD
          DEFAULT_ANTIGRAVITY_PROJECT_ID

/-! ## Quota store (source lines 1033-1090)

The zustand store holds one key-to-state record per provider; each setter
feeds the previous record of its own provider through `resolveUpdater` and
merges the result back, and `clearQuotaCache` resets all five records.  The
per-provider state types are irrelevant to the store's behaviour and are
type parameters. -/

/-- Key-to-state mapping (`Record<string, State>`). -/
def RecordMap (α : Type) : Type := List (String × α)

/-- A store updater is either a replacement value or a function of the
previous value (`QuotaUpdater<T>`, source line 1033). -/
inductive QuotaUpdater (α : Type) where
  | value (v : α)
  | func (f : α → α)

/-- Translation of `resolveUpdater` (source lines 1049-1054). -/
def resolveUpdater {α : Type} (u : QuotaUpdater α) (prev : α) : α :=
  match u with
  | QuotaUpdater.value v => v
  | QuotaUpdater.func f => f prev

/-- Store state (source lines 1035-1047): one record per provider. -/
structure QuotaStoreState (α β γ δ ε : Type) where
  antigravityQuota : RecordMap α
  codexQuota : RecordMap β
  geminiCliQuota : RecordMap γ
  kiroQuota : RecordMap δ
  githubCopilotQuota : RecordMap ε

/-- Translation of `setAntigravityQuota` (source lines 1062-1065). -/
def setAntigravityQuota {α β γ δ ε : Type} (u : QuotaUpdater (RecordMap α))
    (s : QuotaStoreState α β γ δ ε) : QuotaStoreState α β γ δ ε :=
  { s with antigravityQuota := resolveUpdater u s.antigravityQuota }

/-- Translation of `setCodexQuota` (source lines 1066-1069). -/
def setCodexQuota {α β γ δ ε : Type} (u : QuotaUpdater (RecordMap β))
    (s : QuotaStoreState α β γ δ ε) : QuotaStoreState α β γ δ ε :=
  { s with codexQuota := resolveUpdater u s.codexQuota }

/-- Translation of `setGeminiCliQuota` (source lines 1070-1073). -/
def setGeminiCliQuota {α β γ δ ε : Type} (u : QuotaUpdater (RecordMap γ))
    (s : QuotaStoreState α β γ δ ε) : QuotaStoreState α β γ δ ε :=
  { s with geminiCliQuota := resolveUpdater u s.geminiCliQuota }

/-- Translation of `setKiroQuota` (source lines 1074-1077). -/
def setKiroQuota {α β γ δ ε : Type} (u : QuotaUpdater (RecordMap δ))
    (s : QuotaStoreState α β γ δ ε) : QuotaStoreState α β γ δ ε :=
  { s with kiroQuota := resolveUpdater u s.kiroQuota }

/-- Translation of `setGithubCopilotQuota` (source lines 1078-1081). -/
def setGithubCopilotQuota {α β γ δ ε : Type} (u : QuotaUpdater (RecordMap ε))
    (s : QuotaStoreState α β γ δ ε) : QuotaStoreState α β γ δ ε :=
  { s with githubCopilotQuota := resolveUpdater u s.githubCopilotQuota }

/-- Translation of `clearQuotaCache` (source lines 1082-1089). -/
def clearQuotaCache {α β γ δ ε : Type} (_s : QuotaStoreState α β γ δ ε) :
    QuotaStoreState α β γ δ ε :=
  { antigravityQuota := [], codexQuota := [], geminiCliQuota := [],
    kiroQuota := [], githubCopilotQuota := [] }

/-! ## Trace-level specification of the Antigravity loop

To state the claims about the loop, the executed attempts are summarized by
pure functions of the trace: the status an attempt records (non-2xx
responses, and rejections carrying a truthy status), the first-seen 403/404,
the last recorded status, whether an attempt was a 2xx response, and the
error message an absorbed attempt leaves behind. -/

/-- The status, if any, an attempt records into `lastStatus`. -/
def agRecStatus : AGAttempt → Option Int
  | AGAttempt.resp s _ _ => if is2xx s then none else some s
  | AGAttempt.thrown _ (some s) => if s == 0 then none else some s
  | AGAttempt.thrown _ none => none

/-- The status an attempt contributes to the priority status: its recorded
status when that is 403 or 404. -/
def agPrioCand (a : AGAttempt) : Option Int :=
  (agRecStatus a).bind (fun s => if s == 403 || s == 404 then some s else none)

/-- First-seen 403/404 across a trace. -/
def agPriorityOf : List AGAttempt → Option Int
  | [] => none
  | a :: tr => (agPrioCand a).orElse (fun _ => agPriorityOf tr)

/-- Last recorded status across a trace. -/
def agLastStatusOf : List AGAttempt → Option Int
  | [] => none
  | a :: tr => (agLastStatusOf tr).orElse (fun _ => agRecStatus a)

/-- Whether an attempt was a settled 2xx response. -/
def agIsOk2xx : AGAttempt → Bool
  | AGAttempt.resp s _ _ => is2xx s
  | AGAttempt.thrown _ _ => false

/-- The error message an absorbed (non-returning) attempt leaves in
`lastError`: its own message for a non-2xx response, the empty-models text
for an absorbed 2xx response, and the thrown message (or the generic
unknown-error text) for a rejection. -/
def agAttemptError (t : String → String) : AGAttempt → String
  | AGAttempt.resp s e _ => if is2xx s then t "antigravity_quota.empty_models" else e
  | AGAttempt.thrown m _ => m.getD (t "common.unknown_error")

/-- Last recorded error message across a trace. -/
def agLastErrorOf (t : String → String) : List AGAttempt → Option String
  | [] => none
  | a :: tr => (agLastErrorOf t tr).orElse (fun _ => some (agAttemptError t a))

/-- The message of the final thrown error, per the epilogue's
`lastError || t('common.unknown_error')`. -/
def agErrMsgOf (t : String → String) (tr : List AGAttempt) : String :=
  match agLastErrorOf t tr with
  | some e => if e == "" then t "common.unknown_error" else e
  | none => t "common.unknown_error"

/-- State transformation a single absorbed attempt performs on the loop
locals, expressed through the trace summaries. -/
def agNextState (t : String → String) (a : AGAttempt) (st : AGLoopState) : AGLoopState :=
  { lastError := agAttemptError t a,
    lastStatus := (agRecStatus a).orElse (fun _ => st.lastStatus),
    priorityStatus := st.priorityStatus.orElse (fun _ => agPrioCand a),
    hadSuccess := st.hadSuccess || agIsOk2xx a }

/-- Folding a whole trace of absorbed attempts over the loop locals. -/
def agFoldState (t : String → String) (st : AGLoopState) (tr : List AGAttempt) : AGLoopState :=
  tr.foldl (fun s a => agNextState t a s) st

/-! ## Concrete inputs used by witnesses and counterexamples -/

/-- Environment in which URL "u1" responds 404 and every other URL responds
403; no attempt succeeds. -/
def agEnvC2 : String → Nat → AGAttempt := fun url _ =>
  if url == "u1" then AGAttempt.resp 404 "e1" none else AGAttempt.resp 403 "e2" none

/-- Environment whose every attempt fails with 403. -/
def agEnvC2w : String → Nat → AGAttempt := fun _ _ => AGAttempt.resp 403 "denied" none

/-- Environment whose first body variant draws a 400 unknown-field response
and whose second draws a 403. -/
def agEnvC4 : String → Nat → AGAttempt := fun _ i =>
  if i == 0 then
    AGAttempt.resp 400 "Invalid JSON payload received. Unknown name \"projectId\": Cannot find field." none
  else AGAttempt.resp 400 "denied" none

/-- Environment whose every attempt is a 2xx response carrying
`models = []` (an array). -/
def agEnvC8 : String → Nat → AGAttempt := fun _ _ =>
  AGAttempt.resp 200 "ok" (some { models := some (Json.arr []) })

/-- Environment whose every attempt is a 2xx response with no `models`
field. -/
def agEnvC5 : String → Nat → AGAttempt := fun _ _ =>
  AGAttempt.resp 204 "ok" (some { models := none })

/-- Codex payload whose primary window reports `used_percent = 150`. -/
def codexPayloadEx : CodexUsagePayload :=
  { rate_limit := some
      { primary_window := some { used_percent := some (Json.num 150), usedPercent := none },
        primaryWindow := none, secondary_window := none, secondaryWindow := none,
        limit_reached := none, limitReached := none, allowed := none },
    rateLimit := none, code_review_rate_limit := none, codeReviewRateLimit := none }

/-- The single window `buildCodexQuotaWindows` builds from `codexPayloadEx`
under the reset-label formatter that always yields "-" and the identity
translation. -/
def codexWindowEx : CodexQuotaWindow :=
  { id := "primary", label := "codex_quota.primary_window",
    labelKey := "codex_quota.primary_window", usedPercent := some 150, resetLabel := "-" }

/-- GeminiCli raw bucket with a model id, `remainingAmount = 0`, and neither
a direct fraction nor a reset time. -/
def geminiBucketEx : GeminiRawBucket :=
  { modelId := some (Json.str "gemini-pro"), model_id := none,
    tokenType := none, token_type := none,
    remainingFraction := none, remaining_fraction := none,
    remainingAmount := some (Json.num 0), remaining_amount := none,
    resetTime := none, reset_time := none }

/-- Credential JSON carrying a project id only under `installed.projectId`
(camelCase) and `web.project_id` (snake_case). -/
def agCredC9 : Json :=
  Json.obj [("installed", Json.obj [("projectId", Json.str "installed-camel-id")]),
            ("web", Json.obj [("project_id", Json.str "web-snake-id")])]

lemma optOrElseNone {α : Type} (o : Option α) : o.orElse (fun _ => none) = o := by
  cases o <;> rfl

lemma optOrElseAssoc {α : Type} (a b : Option α) (c : Unit → Option α) :
    (a.orElse (fun _ => b)).orElse c = a.orElse (fun _ => b.orElse c) := by
  cases a <;> rfl

/-- Every outcome of one attempt step: an early return with non-empty groups
(necessarily a 2xx response), or an absorbed attempt whose resulting locals
are `agNextState`. -/
lemma agStepAttempt_state (bg : List (String × Json) → List AGGroup) (t : String → String)
    (a : AGAttempt) (i : Nat) (st : AGLoopState) :
    (∃ gs, agStepAttempt bg t a i st = AGStep.done gs ∧ gs ≠ [] ∧ agIsOk2xx a = true) ∨
    agStepAttempt bg t a i st = AGStep.contBody (agNextState t a st) ∨
    agStepAttempt bg t a i st = AGStep.breakUrl (agNextState t a st) := by
  cases a with
  | resp s e p =>
    by_cases h2 : is2xx s = true
    · by_cases hbad : antigravityModelsBad (agModelsOf p) = true
      · right; left
        simp [agStepAttempt, h2, hbad, agNextState, agAttemptError, agRecStatus, agPrioCand,
          agIsOk2xx, optOrElseNone]
      · by_cases hlen : (bg (agModelsFields (agModelsOf p))).length == 0
        · right; left
          simp [agStepAttempt, h2, hbad, hlen, agNextState, agAttemptError, agRecStatus,
            agPrioCand, agIsOk2xx, optOrElseNone]
        · left
          refine ⟨bg (agModelsFields (agModelsOf p)), ?_, ?_, ?_⟩
          · simp [agStepAttempt, h2, hbad, hlen]
          · intro hnil
            simp [hnil] at hlen
          · simpa [agIsOk2xx] using h2
    · have h2f : is2xx s = false := by simpa using h2
      by_cases hcont : (s == 400 && isAntigravityUnknownFieldError e
          && decide (i < agBodyCount - 1)) = true
      · right; left
        by_cases hp : s = 403 ∨ s = 404 <;>
          simp [agStepAttempt, h2f, hcont, agNextState, agAttemptError, agRecStatus,
            agPrioCand, agIsOk2xx, agRecordPriority, optOrElseNone, hp]
      · right; right
        by_cases hp : s = 403 ∨ s = 404 <;>
          simp [agStepAttempt, h2f, hcont, agNextState, agAttemptError, agRecStatus,
            agPrioCand, agIsOk2xx, agRecordPriority, optOrElseNone, hp]
  | thrown m stt =>
    right; left
    cases stt with
    | none =>
      simp [agStepAttempt, agNextState, agAttemptError, agRecStatus, agPrioCand,
        agIsOk2xx, optOrElseNone]
    | some s =>
      by_cases hz : (s == 0) = true
      · simp [agStepAttempt, hz, agNextState, agAttemptError, agRecStatus, agPrioCand,
          agIsOk2xx, optOrElseNone]
      · have hz' : (s == 0) = false := by simpa using hz
        by_cases hp : s = 403 ∨ s = 404 <;>
          simp [agStepAttempt, hz', agNextState, agAttemptError, agRecStatus, agPrioCand,
            agIsOk2xx, agRecordPriority, optOrElseNone, hp]

/-- Running the inner loop: falling through folds the executed attempts over
the locals; an early return carries non-empty groups and a 2xx attempt in
its trace. -/
lemma agRunBodies_spec (bg : List (String × Json) → List AGGroup) (t : String → String)
    (env : String → Nat → AGAttempt) (url : String) :
    ∀ (l : List Nat) (st : AGLoopState),
      (∀ st1 tr, agRunBodies bg t env url l st = (AGRun.fell st1, tr) →
        st1 = agFoldState t st tr) ∧
      (∀ gs tr, agRunBodies bg t env url l st = (AGRun.found gs, tr) →
        gs ≠ [] ∧ tr.any agIsOk2xx = true) := by
  intro l
  induction l with
  | nil =>
    intro st
    constructor
    · intro st1 tr h
      simp only [agRunBodies] at h
      injection h with h1 h2
      injection h1 with h1
      rw [← h1, ← h2]
      rfl
    · intro gs tr h
      simp only [agRunBodies] at h
      injection h with h1 h2
      cases h1
  | cons i rest ih =>
    intro st
    rcases agStepAttempt_state bg t (env url i) i st with ⟨gs0, hstep, hne, hok⟩ | hstep | hstep
    · constructor
      · intro st1 tr h
        simp only [agRunBodies, hstep] at h
        injection h with h1 h2
        cases h1
      · intro gs tr h
        simp only [agRunBodies, hstep] at h
        injection h with h1 h2
        injection h1 with h1
        refine ⟨?_, ?_⟩
        · rw [← h1]; exact hne
        · rw [← h2]
          simp [List.any_cons, hok]
    · constructor
      · intro st1 tr h
        simp only [agRunBodies, hstep] at h
        injection h with h1 h2
        have hrec :
            agRunBodies bg t env url rest (agNextState t (env url i) st) =
              (AGRun.fell st1,
               (agRunBodies bg t env url rest (agNextState t (env url i) st)).2) := by
          rw [← h1]
        have hres := (ih (agNextState t (env url i) st)).1 st1 _ hrec
        rw [← h2, hres]
        rfl
      · intro gs tr h
        simp only [agRunBodies, hstep] at h
        injection h with h1 h2
        have hrec :
            agRunBodies bg t env url rest (agNextState t (env url i) st) =
              (AGRun.found gs,
               (agRunBodies bg t env url rest (agNextState t (env url i) st)).2) := by
          rw [← h1]
        have hres := (ih (agNextState t (env url i) st)).2 gs _ hrec
        refine ⟨hres.1, ?_⟩
        rw [← h2]
        simp [List.any_cons, hres.2]
    · constructor
      · intro st1 tr h
        simp only [agRunBodies, hstep] at h
        injection h with h1 h2
        injection h1 with h1
        rw [← h1, ← h2]
        rfl
      · intro gs tr h
        simp only [agRunBodies, hstep] at h
        injection h with h1 h2
        cases h1

/-- Running the outer loop over URLs: the analogue of `agRunBodies_spec`. -/
lemma agRunUrls_spec (bg : List (String × Json) → List AGGroup) (t : String → String)
    (env : String → Nat → AGAttempt) :
    ∀ (urls : List String) (st : AGLoopState),
      (∀ st1 tr, agRunUrls bg t env urls st = (AGRun.fell st1, tr) →
        st1 = agFoldState t st tr) ∧
      (∀ gs tr, agRunUrls bg t env urls st = (AGRun.found gs, tr) →
        gs ≠ [] ∧ tr.any agIsOk2xx = true) := by
  intro urls
  induction urls with
  | nil =>
    intro st
    constructor
    · intro st1 tr h
      simp only [agRunUrls] at h
      injection h with h1 h2
      injection h1 with h1
      rw [← h1, ← h2]
      rfl
    · intro gs tr h
      simp only [agRunUrls] at h
      injection h with h1 h2
      cases h1
  | cons url rest ih =>
    intro st
    rcases hb : agRunBodies bg t env url (List.range agBodyCount) st with ⟨rb, trb⟩
    cases rb with
    | found gs0 =>
      have hfound := (agRunBodies_spec bg t env url (List.range agBodyCount) st).2 gs0 trb hb
      constructor
      · intro st1 tr h
        simp only [agRunUrls, hb] at h
        injection h with h1 h2
        cases h1
      · intro gs tr h
        simp only [agRunUrls, hb] at h
        injection h with h1 h2
        injection h1 with h1
        rw [← h1, ← h2]
        exact hfound
    | fell stb =>
      have hfell := (agRunBodies_spec bg t env url (List.range agBodyCount) st).1 stb trb hb
      constructor
      · intro st1 tr h
        simp only [agRunUrls, hb] at h
        injection h with h1 h2
        have hrec :
            agRunUrls bg t env rest stb =
              (AGRun.fell st1, (agRunUrls bg t env rest stb).2) := by
          rw [← h1]
        have hres := (ih stb).1 st1 _ hrec
        rw [← h2, hres, hfell, agFoldState, agFoldState, agFoldState, List.foldl_append]
      · intro gs tr h
        simp only [agRunUrls, hb] at h
        injection h with h1 h2
        have hrec :
            agRunUrls bg t env rest stb =
              (AGRun.found gs, (agRunUrls bg t env rest stb).2) := by
          rw [← h1]
        have hres := (ih stb).2 gs _ hrec
        refine ⟨hres.1, ?_⟩
        rw [← h2]
        simp [List.any_append, hres.2]

/-- `hadSuccess` after folding a trace. -/
lemma agFold_hadSuccess (t : String → String) :
    ∀ (tr : List AGAttempt) (st : AGLoopState),
      (agFoldState t st tr).hadSuccess = (st.hadSuccess || tr.any agIsOk2xx) := by
  intro tr
  induction tr with
  | nil => intro st; simp [agFoldState]
  | cons a tr ih =>
    intro st
    have : agFoldState t st (a :: tr) = agFoldState t (agNextState t a st) tr := rfl
    rw [this, ih]
    simp [agNextState, List.any_cons, Bool.or_assoc]

/-- `priorityStatus` after folding a trace: the first-seen 403/404, behind
whatever priority was already latched. -/
lemma agFold_priority (t : String → String) :
    ∀ (tr : List AGAttempt) (st : AGLoopState),
      (agFoldState t st tr).priorityStatus =
        st.priorityStatus.orElse (fun _ => agPriorityOf tr) := by
  intro tr
  induction tr with
  | nil => intro st; simp [agFoldState, agPriorityOf, optOrElseNone]
  | cons a tr ih =>
    intro st
    have h0 : agFoldState t st (a :: tr) = agFoldState t (agNextState t a st) tr := rfl
    rw [h0, ih]
    show (st.priorityStatus.orElse fun _ => agPrioCand a).orElse (fun _ => agPriorityOf tr) = _
    rw [optOrElseAssoc]
    rfl

/-- `lastStatus` after folding a trace: the trace's last recorded status,
else the status already latched. -/
lemma agFold_lastStatus (t : String → String) :
    ∀ (tr : List AGAttempt) (st : AGLoopState),
      (agFoldState t st tr).lastStatus =
        (agLastStatusOf tr).orElse (fun _ => st.lastStatus) := by
  intro tr
  induction tr with
  | nil => intro st; rfl
  | cons a tr ih =>
    intro st
    have h0 : agFoldState t st (a :: tr) = agFoldState t (agNextState t a st) tr := rfl
    rw [h0, ih]
    show (agLastStatusOf tr).orElse (fun _ => (agRecStatus a).orElse fun _ => st.lastStatus) = _
    rw [← optOrElseAssoc]
    rfl

/-- `lastError` after folding a trace: the trace's last recorded message,
else the message already latched. -/
lemma agFold_lastError (t : String → String) :
    ∀ (tr : List AGAttempt) (st : AGLoopState),
      (agFoldState t st tr).lastError = (agLastErrorOf t tr).getD st.lastError := by
  intro tr
  induction tr with
  | nil => intro st; rfl
  | cons a tr ih =>
    intro st
    have h0 : agFoldState t st (a :: tr) = agFoldState t (agNextState t a st) tr := rfl
    rw [h0, ih]
    show (agLastErrorOf t tr).getD (agAttemptError t a) = _
    show _ = ((agLastErrorOf t tr).orElse fun _ => some (agAttemptError t a)).getD st.lastError
    cases agLastErrorOf t tr <;> rfl

/-- A thrown loop error is fully characterised by the executed-attempt trace:
no executed attempt was 2xx, the status is the first-seen 403/404 (else the
last recorded status), and the message is the last recorded one (else the
generic unknown-error text). -/
lemma antigravityAttemptLoop_error_char (bg : List (String × Json) → List AGGroup)
    (t : String → String) (env : String → Nat → AGAttempt) (urls : List String)
    (m : String) (s : Option Int)
    (h : antigravityAttemptLoop bg t env urls = Except.error (m, s)) :
    (antigravityLoopTrace bg t env urls).any agIsOk2xx = false ∧
    s = (agPriorityOf (antigravityLoopTrace bg t env urls)).orElse
          (fun _ => agLastStatusOf (antigravityLoopTrace bg t env urls)) ∧
    m = agErrMsgOf t (antigravityLoopTrace bg t env urls) := by
  rcases hrun : agRunUrls bg t env urls agInitState with ⟨r, tr⟩
  have htr : antigravityLoopTrace bg t env urls = tr := by
    rw [antigravityLoopTrace, hrun]
  cases r with
  | found gs =>
    rw [antigravityAttemptLoop, hrun] at h
    cases h
  | fell st =>
    have hst := (agRunUrls_spec bg t env urls agInitState).1 st tr hrun
    rw [antigravityAttemptLoop, hrun] at h
    dsimp only at h
    by_cases hsucc : st.hadSuccess = true
    · rw [if_pos hsucc] at h
      cases h
    · rw [if_neg hsucc] at h
      injection h with h
      injection h with hm hs
      have hsf : st.hadSuccess = false := by
        cases hsv : st.hadSuccess
        · rfl
        · exact absurd hsv hsucc
      have hany : tr.any agIsOk2xx = false := by
        have hfold := agFold_hadSuccess t tr agInitState
        rw [← hst, hsf] at hfold
        simpa [agInitState] using hfold.symm
      refine ⟨htr ▸ hany, ?_, ?_⟩
      · rw [htr, ← hs, hst, agFold_priority, agFold_lastStatus]
        have h1 : (agLastStatusOf tr).orElse (fun _ => agInitState.lastStatus) =
            agLastStatusOf tr := optOrElseNone _
        rw [h1]
        rfl
      · rw [htr, ← hm, hst, agFold_lastError]
        simp only [agInitState]
        rw [agErrMsgOf]
        cases agLastErrorOf t tr with
        | none => simp
        | some e => by_cases he : e = "" <;> simp [he]

/-- When the loop produced no non-empty group list, it returns the empty
list exactly when some executed attempt was a 2xx response. -/
lemma antigravityAttemptLoop_ok_iff (bg : List (String × Json) → List AGGroup)
    (t : String → String) (env : String → Nat → AGAttempt) (urls : List String)
    (hne : ∀ gs, antigravityAttemptLoop bg t env urls = Except.ok gs → gs = []) :
    (antigravityAttemptLoop bg t env urls = Except.ok [] ↔
      (antigravityLoopTrace bg t env urls).any agIsOk2xx = true) := by
  rcases hrun : agRunUrls bg t env urls agInitState with ⟨r, tr⟩
  have htr : antigravityLoopTrace bg t env urls = tr := by
    rw [antigravityLoopTrace, hrun]
  cases r with
  | found gs =>
    exfalso
    have hloop : antigravityAttemptLoop bg t env urls = Except.ok gs := by
      rw [antigravityAttemptLoop, hrun]
    have hgs := hne gs hloop
    have := (agRunUrls_spec bg t env urls agInitState).2 gs tr hrun
    exact this.1 hgs
  | fell st =>
    have hst := (agRunUrls_spec bg t env urls agInitState).1 st tr hrun
    have hsu : st.hadSuccess = tr.any agIsOk2xx := by
      have := agFold_hadSuccess t tr agInitState
      rw [← hst] at this
      simpa [agInitState] using this
    rw [htr]
    constructor
    · intro hok
      rw [antigravityAttemptLoop, hrun] at hok
      dsimp only at hok
      by_cases hsucc : st.hadSuccess = true
      · rw [← hsu]; exact hsucc
      · rw [if_neg hsucc] at hok
        cases hok
    · intro hany
      rw [antigravityAttemptLoop, hrun]
      dsimp only
      rw [if_pos (hsu ▸ hany)]

/-- A one-element body list executes exactly its attempt, whatever the
outcome. -/
lemma agRunBodies_single_trace (bg : List (String × Json) → List AGGroup) (t : String → String)
    (env : String → Nat → AGAttempt) (url : String) (i : Nat) (st : AGLoopState) :
    (agRunBodies bg t env url [i] st).2 = [env url i] := by
  cases h : agStepAttempt bg t (env url i) i st <;> simp [agRunBodies, h]

/-- Where a built Codex window's `usedPercent` can come from: the raw window
exists, and the value is null, the synthesized 100, or the normalized raw
percentage. -/
lemma addWindow_usedPercent (fmt : CodexUsageWindow → String) (t : String → String)
    (id0 labelKey : String) (cand : Option CodexUsageWindow)
    (lr al : Option Bool) (w : CodexQuotaWindow)
    (h : addWindow fmt t id0 labelKey cand lr al = some w) :
    ∃ rw0, cand = some rw0 ∧
      (w.usedPercent = none ∨ w.usedPercent = some 100 ∨
        w.usedPercent = normalizeNumberValue (jsCoalesce rw0.used_percent rw0.usedPercent)) := by
  cases cand with
  | none => simp [addWindow] at h
  | some rw0 =>
    refine ⟨rw0, rfl, ?_⟩
    simp only [addWindow] at h
    injection h with h
    cases hraw : normalizeNumberValue (jsCoalesce rw0.used_percent rw0.usedPercent) with
    | some q =>
      right; right
      rw [← h, hraw]
      rfl
    | none =>
      rw [← h]
      by_cases hcl : (((lr == some true) || (al == some false)) && !(fmt rw0 == "-")) = true
      · right; left
        simp [hraw, hcl, Option.orElse]
      · left
        have hcl2 : (((lr == some true) || (al == some false)) && !(fmt rw0 == "-")) = false := by
          simpa using hcl
        simp [hraw, hcl2, Option.orElse]

/-- The render-time clamp always lands in `[0, 100]`. -/
lemma codexRenderClampedUsed_mem (u : Option ℚ) (q : ℚ)
    (h : codexRenderClampedUsed u = some q) : 0 ≤ q ∧ q ≤ 100 := by
  cases u with
  | none => simp [codexRenderClampedUsed] at h
  | some x =>
    simp only [codexRenderClampedUsed, Option.map_some] at h
    injection h with h
    constructor
    · rw [← h]; exact le_max_left 0 _
    · rw [← h]
      exact max_le (by norm_num) (min_le_left 100 x)

/-- Appending a trailing no-op coalesce (the end of an alias list) does not
change what `normalizeStringValue` sees. -/
lemma normalizeStringValue_coalesce_none (a b : Option Json) :
    normalizeStringValue (jsCoalesce a (jsCoalesce b none)) =
      normalizeStringValue (jsCoalesce a b) := by
  cases a with
  | none =>
    cases b with
    | none => rfl
    | some v => cases v <;> rfl
  | some v =>
    cases v
    case null =>
      cases b with
      | none => rfl
      | some w => cases w <;> rfl
    all_goals rfl

/-- Claim C10: each provider-specific setter (`setAntigravityQuota`,
`setCodexQuota`, `setGeminiCliQuota`, `setKiroQuota`,
`setGithubCopilotQuota`) replaces only its own provider's key-to-state
mapping — through `resolveUpdater` on the previous mapping — and leaves the
mappings of all other providers unchanged, for every store state and every
updater. -/
theorem claim_C10_setter_frame {α β γ δ ε : Type} (s : QuotaStoreState α β γ δ ε)
    (ua : QuotaUpdater (RecordMap α)) (ub : QuotaUpdater (RecordMap β))
    (uc : QuotaUpdater (RecordMap γ)) (ud : QuotaUpdater (RecordMap δ))
    (ue : QuotaUpdater (RecordMap ε)) :
    ((setAntigravityQuota ua s).antigravityQuota = resolveUpdater ua s.antigravityQuota ∧
      (setAntigravityQuota ua s).codexQuota = s.codexQuota ∧
      (setAntigravityQuota ua s).geminiCliQuota = s.geminiCliQuota ∧
      (setAntigravityQuota ua s).kiroQuota = s.kiroQuota ∧
      (setAntigravityQuota ua s).githubCopilotQuota = s.githubCopilotQuota) ∧
    ((setCodexQuota ub s).codexQuota = resolveUpdater ub s.codexQuota ∧
      (setCodexQuota ub s).antigravityQuota = s.antigravityQuota ∧
      (setCodexQuota ub s).geminiCliQuota = s.geminiCliQuota ∧
      (setCodexQuota ub s).kiroQuota = s.kiroQuota ∧
      (setCodexQuota ub s).githubCopilotQuota = s.githubCopilotQuota) ∧
    ((setGeminiCliQuota uc s).geminiCliQuota = resolveUpdater uc s.geminiCliQuota ∧
      (setGeminiCliQuota uc s).antigravityQuota = s.antigravityQuota ∧
      (setGeminiCliQuota uc s).codexQuota = s.codexQuota ∧
      (setGeminiCliQuota uc s).kiroQuota = s.kiroQuota ∧
      (setGeminiCliQuota uc s).githubCopilotQuota = s.githubCopilotQuota) ∧
    ((setKiroQuota ud s).kiroQuota = resolveUpdater ud s.kiroQuota ∧
      (setKiroQuota ud s).antigravityQuota = s.antigravityQuota ∧
      (setKiroQuota ud s).codexQuota = s.codexQuota ∧
      (setKiroQuota ud s).geminiCliQuota = s.geminiCliQuota ∧
      (setKiroQuota ud s).githubCopilotQuota = s.githubCopilotQuota) ∧
    ((setGithubCopilotQuota ue s).githubCopilotQuota = resolveUpdater ue s.githubCopilotQuota ∧
      (setGithubCopilotQuota ue s).antigravityQuota = s.antigravityQuota ∧
      (setGithubCopilotQuota ue s).codexQuota = s.codexQuota ∧
      (setGithubCopilotQuota ue s).geminiCliQuota = s.geminiCliQuota ∧
      (setGithubCopilotQuota ue s).kiroQuota = s.kiroQuota) :=
  ⟨⟨rfl, rfl, rfl, rfl, rfl⟩, ⟨rfl, rfl, rfl, rfl, rfl⟩, ⟨rfl, rfl, rfl, rfl, rfl⟩,
   ⟨rfl, rfl, rfl, rfl, rfl⟩, ⟨rfl, rfl, rfl, rfl, rfl⟩⟩

/-- Claim C6: for a present Codex usage window with no numeric
`used_percent`/`usedPercent`, the built window's `usedPercent` is 100 when
the rate limit is flagged limit-reached (or `allowed` is explicitly false)
and the formatted reset label differs from "-"; it is null under the same
flags when the reset label equals "-"; and a numeric payload percentage is
always used in preference to the synthesized 100. -/
theorem claim_C6_synthesized_percent (fmt : CodexUsageWindow → String) (t : String → String)
    (id0 labelKey : String) (w : CodexUsageWindow) (limitReached allowed : Option Bool)
    (r : CodexQuotaWindow)
    (hr : addWindow fmt t id0 labelKey (some w) limitReached allowed = some r) :
    (normalizeNumberValue (jsCoalesce w.used_percent w.usedPercent) = none →
      (limitReached = some true ∨ allowed = some false) →
      fmt w ≠ "-" → r.usedPercent = some 100) ∧
    (normalizeNumberValue (jsCoalesce w.used_percent w.usedPercent) = none →
      (limitReached = some true ∨ allowed = some false) →
      fmt w = "-" → r.usedPercent = none) ∧
    (∀ q, normalizeNumberValue (jsCoalesce w.used_percent w.usedPercent) = some q →
      r.usedPercent = some q) := by
  simp only [addWindow] at hr
  injection hr with hr
  refine ⟨?_, ?_, ?_⟩
  · intro h0 hflag hlab
    rw [← hr]
    rcases hflag with hf | hf <;>
      simp [h0, hf, hlab, Option.orElse]
  · intro h0 hflag hlab
    rw [← hr]
    rcases hflag with hf | hf <;>
      simp [h0, hf, hlab, Option.orElse]
  · intro q hq
    rw [← hr]
    simp [hq, Option.orElse]

/-- Witness for C6 at concrete windows: limit reached with reset label
"at 3pm" synthesizes 100; limit reached with reset label "-" leaves null; a
payload percentage of 42 wins over the synthesized 100. -/
theorem claim_C6_witness :
    (∃ r, addWindow (fun _ => "at 3pm") (fun k => k) "primary" "codex_quota.primary_window"
        (some { used_percent := none, usedPercent := none }) (some true) none = some r ∧
      r.usedPercent = some 100) ∧
    (∃ r, addWindow (fun _ => "-") (fun k => k) "primary" "codex_quota.primary_window"
        (some { used_percent := none, usedPercent := none }) (some true) none = some r ∧
      r.usedPercent = none) ∧
    (∃ r, addWindow (fun _ => "at 3pm") (fun k => k) "primary" "codex_quota.primary_window"
        (some { used_percent := some (Json.num 42), usedPercent := none }) (some true) none = some r ∧
      r.usedPercent = some 42) := by
  refine ⟨⟨_, rfl, ?_⟩, ⟨_, rfl, ?_⟩, ⟨_, rfl, ?_⟩⟩
  · exact (claim_C6_synthesized_percent (fun _ => "at 3pm") (fun k => k) "primary"
      "codex_quota.primary_window" { used_percent := none, usedPercent := none }
      (some true) none _ rfl).1 rfl (Or.inl rfl) (by decide)
  · exact (claim_C6_synthesized_percent (fun _ => "-") (fun k => k) "primary"
      "codex_quota.primary_window" { used_percent := none, usedPercent := none }
      (some true) none _ rfl).2.1 rfl (Or.inl rfl) rfl
  · exact (claim_C6_synthesized_percent (fun _ => "at 3pm") (fun k => k) "primary"
      "codex_quota.primary_window" { used_percent := some (Json.num 42), usedPercent := none }
      (some true) none _ rfl).2.2 42 rfl

/-- Claim C7: for a raw GeminiCli bucket that survives parsing, when no
direct fraction normalizes the parsed `remainingFraction` is 0 if a
remaining amount is present and at most 0, 0 if no amount is present but a
reset time is, and null if the amount is present and positive or amount,
fraction and reset time are all absent; a normalized direct fraction is
always preferred over the fallback. -/
theorem claim_C7_fallback_fraction (b : GeminiRawBucket) (r : GeminiParsedBucket)
    (hr : parseGeminiCliBucket b = some r) :
    (normalizeQuotaFraction (jsCoalesce b.remainingFraction b.remaining_fraction) = none →
      ∀ a, normalizeNumberValue (jsCoalesce b.remainingAmount b.remaining_amount) = some a →
        a ≤ 0 → r.remainingFraction = some 0) ∧
    (normalizeQuotaFraction (jsCoalesce b.remainingFraction b.remaining_fraction) = none →
      normalizeNumberValue (jsCoalesce b.remainingAmount b.remaining_amount) = none →
      normalizeStringValue (jsCoalesce b.resetTime b.reset_time) ≠ none →
      r.remainingFraction = some 0) ∧
    (normalizeQuotaFraction (jsCoalesce b.remainingFraction b.remaining_fraction) = none →
      ((∃ a, normalizeNumberValue (jsCoalesce b.remainingAmount b.remaining_amount) = some a ∧
          0 < a) ∨
        (normalizeNumberValue (jsCoalesce b.remainingAmount b.remaining_amount) = none ∧
          normalizeStringValue (jsCoalesce b.resetTime b.reset_time) = none)) →
      r.remainingFraction = none) ∧
    (∀ q, normalizeQuotaFraction (jsCoalesce b.remainingFraction b.remaining_fraction) = some q →
      r.remainingFraction = some q) := by
  cases hmid : normalizeStringValue (jsCoalesce b.modelId b.model_id) with
  | none => simp [parseGeminiCliBucket, hmid] at hr
  | some modelId =>
    simp only [parseGeminiCliBucket, hmid] at hr
    injection hr with hr
    refine ⟨?_, ?_, ?_, ?_⟩
    · intro hfr a hamt ha
      rw [← hr]
      simp [hfr, hamt, ha, Option.orElse]
    · intro hfr hamt hrt
      rw [← hr]
      cases hrt2 : normalizeStringValue (jsCoalesce b.resetTime b.reset_time) with
      | none => exact absurd hrt2 hrt
      | some rt => simp [hfr, hamt, hrt2, Option.orElse]
    · intro hfr hcase
      rw [← hr]
      rcases hcase with ⟨a, hamt, ha⟩ | ⟨hamt, hrt⟩
      · simp [hfr, hamt, not_le.mpr ha, Option.orElse]
      · simp [hfr, hamt, hrt, Option.orElse]
    · intro q hq
      rw [← hr]
      simp [hq, Option.orElse]

/-- Witness for C7: the concrete bucket with `remainingAmount = 0`, no
direct fraction and no reset time parses to `remainingFraction = 0`. -/
theorem claim_C7_witness :
    ∃ r, parseGeminiCliBucket geminiBucketEx = some r ∧ r.remainingFraction = some 0 := by
  refine ⟨{ modelId := "gemini-pro", tokenType := none, remainingFraction := some 0,
            remainingAmount := some 0, resetTime := none }, by rfl, ?_⟩
  exact (claim_C7_fallback_fraction geminiBucketEx
    { modelId := "gemini-pro", tokenType := none, remainingFraction := some 0,
      remainingAmount := some 0, resetTime := none } (by rfl)).1 rfl 0 rfl le_rfl

/-- Claim C1, counterexample: with a reset-date string present but
unparseable (the date parser yields no timestamp) and the legacy numeric
field `limited_user_reset_date = 1700000000` present, the resolved
`quotaResetDate` is null — not the legacy value the claim requires. -/
theorem claim_C1_counterexample :
    resolveGithubCopilotResetDate (fun _ => none)
      (some (Json.str "soon")) none (some (Json.num 1700000000)) none = none ∧
    normalizeStringValue (jsCoalesce (some (Json.str "soon")) none) = some "soon" ∧
    normalizeNumberValue (jsCoalesce (some (Json.num 1700000000)) none) = some 1700000000 ∧
    (none : Option ℚ) ≠ some 1700000000 := by
  refine ⟨by rfl, by rfl, rfl, by simp⟩

/-- Claim C1, amended: an unparseable reset-date string leaves
`quotaResetDate` null with no error raised; a parseable one yields the
floored Unix-seconds timestamp; and the legacy numeric field is consulted
only when the string field is absent (after normalization), not when it is
present but unparseable. -/
theorem claim_C1_reset_date (parseDateMs : String → Option Int)
    (qrd qrdC lurd lurdC : Option Json) :
    (∀ s, normalizeStringValue (jsCoalesce qrd qrdC) = some s → parseDateMs s = none →
      resolveGithubCopilotResetDate parseDateMs qrd qrdC lurd lurdC = none) ∧
    (∀ s ms, normalizeStringValue (jsCoalesce qrd qrdC) = some s → parseDateMs s = some ms →
      resolveGithubCopilotResetDate parseDateMs qrd qrdC lurd lurdC =
        some ((Int.fdiv ms 1000 : Int) : ℚ)) ∧
    (normalizeStringValue (jsCoalesce qrd qrdC) = none →
      resolveGithubCopilotResetDate parseDateMs qrd qrdC lurd lurdC =
        normalizeNumberValue (jsCoalesce lurd lurdC)) := by
  refine ⟨?_, ?_, ?_⟩
  · intro s hs hp
    simp [resolveGithubCopilotResetDate, hs, hp]
  · intro s ms hs hp
    simp [resolveGithubCopilotResetDate, hs, hp]
  · intro hs
    simp [resolveGithubCopilotResetDate, hs]

/-- Witness for the amended C1 at concrete fields: unparseable string with
legacy present gives null; no string with legacy 1700000000 gives the
legacy value; a string parsing to 1699999999123 milliseconds gives
1699999999 seconds. -/
theorem claim_C1_witness :
    resolveGithubCopilotResetDate (fun _ => none)
      (some (Json.str "soon")) none (some (Json.num 7)) none = none ∧
    resolveGithubCopilotResetDate (fun _ => none)
      none none (some (Json.num 1700000000)) none = some 1700000000 ∧
    resolveGithubCopilotResetDate (fun _ => some 1699999999123)
      (some (Json.str "2023-11-14T22:13:19.123Z")) none none none = some 1699999999 := by
  refine ⟨?_, ?_, ?_⟩
  · exact (claim_C1_reset_date (fun _ => none)
      (some (Json.str "soon")) none (some (Json.num 7)) none).1 "soon" (by rfl) rfl
  · exact (claim_C1_reset_date (fun _ => none)
      none none (some (Json.num 1700000000)) none).2.2 rfl
  · have h := (claim_C1_reset_date (fun _ => some 1699999999123)
      (some (Json.str "2023-11-14T22:13:19.123Z")) none none none).2.1
      "2023-11-14T22:13:19.123Z" 1699999999123 (by rfl) rfl
    have h2 : (1699999999123 : ℤ).fdiv 1000 = 1699999999 := by decide
    rw [h, h2]
    norm_num

/-- Claim C3, counterexample: a payload reporting `used_percent = 150`
surfaces `usedPercent = some 150` in the built windows — neither null nor
within `[0, 100]` — so the windows are not clamped before reaching the
Success state. -/
theorem claim_C3_counterexample :
    (buildCodexQuotaWindows (fun _ => "-") (fun k => k) codexPayloadEx).map (·.usedPercent) =
      [some 150] ∧
    ¬ (∀ u ∈ (buildCodexQuotaWindows (fun _ => "-") (fun k => k) codexPayloadEx).map
          (·.usedPercent),
        u = none ∨ ∃ q, u = some q ∧ 0 ≤ q ∧ q ≤ 100) := by
  have hmap : (buildCodexQuotaWindows (fun _ => "-") (fun k => k) codexPayloadEx).map
      (·.usedPercent) = [some 150] := by rfl
  refine ⟨hmap, ?_⟩
  intro hall
  have hmem : some (150 : ℚ) ∈ (buildCodexQuotaWindows (fun _ => "-") (fun k => k)
      codexPayloadEx).map (·.usedPercent) := by
    rw [hmap]
    exact List.mem_singleton.mpr rfl
  rcases hall _ hmem with h | ⟨q, hq, h0, h1⟩
  · exact Option.noConfusion h
  · injection hq with hq
    rw [← hq] at h1
    norm_num at h1

/-- Claim C3, amended: a built Codex window's `usedPercent` is null, the
synthesized 100, or exactly the payload's own normalized `used_percent`
value, surfaced unclamped; the `[0, 100]` clamp is applied by the rendering
layer, whose clamped value always lies in that interval. -/
theorem claim_C3_unclamped_percent (fmt : CodexUsageWindow → String) (t : String → String)
    (payload : CodexUsagePayload) (w : CodexQuotaWindow)
    (hw : w ∈ buildCodexQuotaWindows fmt t payload) :
    (w.usedPercent = none ∨ w.usedPercent = some 100 ∨
      ∃ rw0, some rw0 ∈ codexCandidateWindows payload ∧
        w.usedPercent = normalizeNumberValue (jsCoalesce rw0.used_percent rw0.usedPercent)) ∧
    (∀ q, codexRenderClampedUsed w.usedPercent = some q → 0 ≤ q ∧ q ≤ 100) := by
  refine ⟨?_, fun q hq => codexRenderClampedUsed_mem w.usedPercent q hq⟩
  rw [buildCodexQuotaWindows] at hw
  rcases List.mem_filterMap.mp hw with ⟨o, ho, hid⟩
  rw [id] at hid
  simp only [List.mem_cons, List.not_mem_nil, or_false] at ho
  rcases ho with ho | ho | ho
  · rcases addWindow_usedPercent _ _ _ _ _ _ _ _ (ho ▸ hid) with ⟨rw0, hc, hcase⟩
    rcases hcase with h | h | h
    · exact Or.inl h
    · exact Or.inr (Or.inl h)
    · refine Or.inr (Or.inr ⟨rw0, ?_, h⟩)
      rw [codexCandidateWindows, ← hc]
      simp
  · rcases addWindow_usedPercent _ _ _ _ _ _ _ _ (ho ▸ hid) with ⟨rw0, hc, hcase⟩
    rcases hcase with h | h | h
    · exact Or.inl h
    · exact Or.inr (Or.inl h)
    · refine Or.inr (Or.inr ⟨rw0, ?_, h⟩)
      rw [codexCandidateWindows, ← hc]
      simp
  · rcases addWindow_usedPercent _ _ _ _ _ _ _ _ (ho ▸ hid) with ⟨rw0, hc, hcase⟩
    rcases hcase with h | h | h
    · exact Or.inl h
    · exact Or.inr (Or.inl h)
    · refine Or.inr (Or.inr ⟨rw0, ?_, h⟩)
      rw [codexCandidateWindows, ← hc]
      simp

/-- Witness for the amended C3 at the concrete payload: the single built
window is `codexWindowEx`, and the amended disjunction plus the render-clamp
bound hold for it. -/
theorem claim_C3_witness :
    buildCodexQuotaWindows (fun _ => "-") (fun k => k) codexPayloadEx = [codexWindowEx] ∧
    ((codexWindowEx.usedPercent = none ∨ codexWindowEx.usedPercent = some 100 ∨
       ∃ rw0, some rw0 ∈ codexCandidateWindows codexPayloadEx ∧
         codexWindowEx.usedPercent =
           normalizeNumberValue (jsCoalesce rw0.used_percent rw0.usedPercent)) ∧
     (∀ q, codexRenderClampedUsed codexWindowEx.usedPercent = some q → 0 ≤ q ∧ q ≤ 100)) := by
  have hbuild : buildCodexQuotaWindows (fun _ => "-") (fun k => k) codexPayloadEx =
      [codexWindowEx] := by rfl
  refine ⟨hbuild, ?_⟩
  exact claim_C3_unclamped_percent (fun _ => "-") (fun k => k) codexPayloadEx codexWindowEx
    (by rw [hbuild]; exact List.mem_singleton.mpr rfl)

/-- Claim C2, counterexample: with URL "u1" failing 404 and URL "u2" failing
403 (every attempt non-2xx, one attempt a 403), the thrown error carries
status 404 — the first-seen member of `{403, 404}` — not 403, so the final
status does depend on the order in which 404s are observed. -/
theorem claim_C2_counterexample :
    antigravityAttemptLoop (fun _ => []) (fun k => k) agEnvC2 ["u1", "u2"] =
      Except.error ("e2", some 404) ∧
    (antigravityLoopTrace (fun _ => []) (fun k => k) agEnvC2 ["u1", "u2"]).map agRecStatus =
      [some 404, some 403] ∧
    (some (404 : Int)) ≠ some 403 := by
  refine ⟨by rfl, by rfl, by simp⟩

/-- Claim C2, amended: when the loop throws, the status it carries is the
first-observed 403/404, else the last recorded status; in particular, when
every executed attempt failed and a 403 was recorded with no 404 before it,
the error carries 403 regardless of the order of all other status codes. -/
theorem claim_C2_first_priority (bg : List (String × Json) → List AGGroup)
    (t : String → String) (env : String → Nat → AGAttempt) (urls : List String)
    (m : String) (s : Option Int)
    (herr : antigravityAttemptLoop bg t env urls = Except.error (m, s))
    (hprio : agPriorityOf (antigravityLoopTrace bg t env urls) = some 403) :
    s = some 403 := by
  have hchar := antigravityAttemptLoop_error_char bg t env urls m s herr
  rw [hchar.2.1, hprio]
  rfl

/-- Witness for the amended C2: a single 403-failing attempt produces an
error whose status is 403. -/
theorem claim_C2_witness :
    antigravityAttemptLoop (fun _ => []) (fun k => k) agEnvC2w ["u"] =
      Except.error ("denied", some 403) ∧
    agPriorityOf (antigravityLoopTrace (fun _ => []) (fun k => k) agEnvC2w ["u"]) = some 403 ∧
    (some (403 : Int)) = some 403 := by
  refine ⟨by rfl, by rfl, ?_⟩
  exact claim_C2_first_priority (fun _ => []) (fun k => k) agEnvC2w ["u"] "denied" (some 403)
    (by rfl) (by rfl)

/-- Claim C4: a 400 response on the first body variant whose message matches
the unknown-field pattern makes the adapter execute the second body variant
against the same URL; a first-variant 400 without the pattern ends the URL
after that single attempt; a 400 on the last body variant breaks to the next
URL regardless of its message; and after the inner loop falls through, the
adapter proceeds with the remaining URLs. -/
theorem claim_C4_body_retry (bg : List (String × Json) → List AGGroup) (t : String → String)
    (env : String → Nat → AGAttempt) (url : String) (st : AGLoopState) :
    (∀ msg p, env url 0 = AGAttempt.resp 400 msg p →
      isAntigravityUnknownFieldError msg = true →
      (agRunBodies bg t env url (List.range agBodyCount) st).2 = [env url 0, env url 1]) ∧
    (∀ msg p, env url 0 = AGAttempt.resp 400 msg p →
      isAntigravityUnknownFieldError msg = false →
      agRunBodies bg t env url (List.range agBodyCount) st =
        (AGRun.fell (agNextState t (env url 0) st), [env url 0])) ∧
    (∀ msg p st1, env url 1 = AGAttempt.resp 400 msg p →
      agStepAttempt bg t (env url 1) 1 st1 = AGStep.breakUrl (agNextState t (env url 1) st1)) ∧
    (∀ rest st1 tr1, agRunBodies bg t env url (List.range agBodyCount) st = (AGRun.fell st1, tr1) →
      agRunUrls bg t env (url :: rest) st =
        ((agRunUrls bg t env rest st1).1, tr1 ++ (agRunUrls bg t env rest st1).2)) := by
  have hrange : List.range agBodyCount = [0, 1] := rfl
  refine ⟨?_, ?_, ?_, ?_⟩
  · intro msg p h0 hpat
    have hstep : agStepAttempt bg t (env url 0) 0 st = AGStep.contBody
        { lastError := msg, lastStatus := some 400,
          priorityStatus := agRecordPriority st.priorityStatus 400,
          hadSuccess := st.hadSuccess } := by
      rw [h0]
      simp [agStepAttempt, is2xx, hpat, agBodyCount]
    rw [hrange]
    simp only [agRunBodies, hstep]
    cases agStepAttempt bg t (env url 1) 1
        { lastError := msg, lastStatus := some 400,
          priorityStatus := agRecordPriority st.priorityStatus 400,
          hadSuccess := st.hadSuccess } <;> rfl
  · intro msg p h0 hpat
    have hstep : agStepAttempt bg t (env url 0) 0 st =
        AGStep.breakUrl (agNextState t (env url 0) st) := by
      rcases agStepAttempt_state bg t (env url 0) 0 st with ⟨gs, hs, _, hok⟩ | hs | hs
      · rw [h0] at hok
        simp [agIsOk2xx, is2xx] at hok
      · exfalso
        rw [h0] at hs
        simp [agStepAttempt, is2xx, hpat] at hs
      · exact hs
    rw [hrange]
    simp only [agRunBodies, hstep]
  · intro msg p st1 h1
    rcases agStepAttempt_state bg t (env url 1) 1 st1 with ⟨gs, hs, _, hok⟩ | hs | hs
    · rw [h1] at hok
      simp [agIsOk2xx, is2xx] at hok
    · exfalso
      rw [h1] at hs
      simp [agStepAttempt, is2xx, agBodyCount] at hs
    · exact hs
  · intro rest st1 tr1 h
    simp only [agRunUrls, h]

/-- Witness for C4 at the concrete environment: a first-variant 400 with the
unknown-field message makes the loop execute both body variants against the
URL, and the second-variant 400 breaks to the next URL. -/
theorem claim_C4_witness :
    (agRunBodies (fun _ => []) (fun k => k) agEnvC4 "u" (List.range agBodyCount)
        agInitState).2 = [agEnvC4 "u" 0, agEnvC4 "u" 1] ∧
    agStepAttempt (fun _ => []) (fun k => k) (agEnvC4 "u" 1) 1 agInitState =
      AGStep.breakUrl (agNextState (fun k => k) (agEnvC4 "u" 1) agInitState) := by
  constructor
  · exact (claim_C4_body_retry (fun _ => []) (fun k => k) agEnvC4 "u" agInitState).1
      "Invalid JSON payload received. Unknown name \"projectId\": Cannot find field." none
      (by rfl) (by rfl)
  · exact (claim_C4_body_retry (fun _ => []) (fun k => k) agEnvC4 "u" agInitState).2.2.1
      "denied" none agInitState (by rfl)

/-- Claim C8: every settled 2xx attempt sets `hadSuccess` (whatever happens
next, the attempt either returns non-empty groups or continues with a state
whose `hadSuccess` is true); when the parsed payload's `models` field is
absent, not an object, or an array, the attempt records the empty-models
message and continues; and at the loop level such an attempt at the first
body variant is followed by the next attempt rather than ending the URL or
failing hard. -/
theorem claim_C8_empty_models (bg : List (String × Json) → List AGGroup) (t : String → String)
    (env : String → Nat → AGAttempt) (s : Int) (msg : String) (p : Option AGPayload)
    (i : Nat) (st : AGLoopState) (h2 : is2xx s = true) :
    (antigravityModelsBad (agModelsOf p) = true →
      agStepAttempt bg t (AGAttempt.resp s msg p) i st =
        AGStep.contBody { st with hadSuccess := true,
                                  lastError := t "antigravity_quota.empty_models" }) ∧
    ((∃ st1, agStepAttempt bg t (AGAttempt.resp s msg p) i st = AGStep.contBody st1 ∧
        st1.hadSuccess = true) ∨
      (∃ gs, agStepAttempt bg t (AGAttempt.resp s msg p) i st = AGStep.done gs ∧ gs ≠ [])) ∧
    (∀ url, env url 0 = AGAttempt.resp s msg p → antigravityModelsBad (agModelsOf p) = true →
      (agRunBodies bg t env url (List.range agBodyCount) st).2 = [env url 0, env url 1]) := by
  have hcont : antigravityModelsBad (agModelsOf p) = true →
      agStepAttempt bg t (AGAttempt.resp s msg p) i st =
        AGStep.contBody { st with hadSuccess := true,
                                  lastError := t "antigravity_quota.empty_models" } := by
    intro hbad
    simp [agStepAttempt, h2, hbad]
  refine ⟨hcont, ?_, ?_⟩
  · by_cases hbad : antigravityModelsBad (agModelsOf p) = true
    · exact Or.inl ⟨{ st with hadSuccess := true,
                              lastError := t "antigravity_quota.empty_models" },
        hcont hbad, rfl⟩
    · have hbad2 : antigravityModelsBad (agModelsOf p) = false := by simpa using hbad
      by_cases hlen : (bg (agModelsFields (agModelsOf p))).length == 0
      · refine Or.inl ⟨{ st with hadSuccess := true,
                                 lastError := t "antigravity_quota.empty_models" }, ?_, rfl⟩
        simp [agStepAttempt, h2, hbad2, hlen]
      · refine Or.inr ⟨bg (agModelsFields (agModelsOf p)), ?_, ?_⟩
        · simp [agStepAttempt, h2, hbad2, hlen]
        · intro hnil
          simp [hnil] at hlen
  · intro url h0 hbad
    have hstep0 : agStepAttempt bg t (env url 0) 0 st =
        AGStep.contBody { st with hadSuccess := true,
                                  lastError := t "antigravity_quota.empty_models" } := by
      rw [h0]
      simp [agStepAttempt, h2, hbad]
    have hrange : List.range agBodyCount = [0, 1] := rfl
    rw [hrange]
    simp only [agRunBodies, hstep0]
    cases agStepAttempt bg t (env url 1) 1
        { st with hadSuccess := true,
                  lastError := t "antigravity_quota.empty_models" } <;> rfl

/-- Witness for C8: a 200 response carrying `models = []` (an array) records
the empty-models message, sets `hadSuccess`, and the loop then runs the
second body variant. -/
theorem claim_C8_witness :
    agStepAttempt (fun _ => []) (fun k => k) (AGAttempt.resp 200 "ok"
        (some { models := some (Json.arr []) })) 0 agInitState =
      AGStep.contBody { agInitState with hadSuccess := true,
                                         lastError := "antigravity_quota.empty_models" } ∧
    (agRunBodies (fun _ => []) (fun k => k) agEnvC8 "u" (List.range agBodyCount)
        agInitState).2 = [agEnvC8 "u" 0, agEnvC8 "u" 1] := by
  constructor
  · exact (claim_C8_empty_models (fun _ => []) (fun k => k) agEnvC8 200 "ok"
      (some { models := some (Json.arr []) }) 0 agInitState (by rfl)).1 (by rfl)
  · exact (claim_C8_empty_models (fun _ => []) (fun k => k) agEnvC8 200 "ok"
      (some { models := some (Json.arr []) }) 0 agInitState (by rfl)).2.2 "u" (by rfl) (by rfl)

/-- Claim C5: when the attempt loop produces no non-empty group list, it
returns the empty group list (a success) exactly when at least one executed
attempt was a 2xx response; otherwise it throws the last recorded error
message (falling back to the generic unknown-error text when none is
non-empty) annotated with the first-seen 403/404, else the last recorded
status. -/
theorem claim_C5_empty_success (bg : List (String × Json) → List AGGroup)
    (t : String → String) (env : String → Nat → AGAttempt) (urls : List String)
    (hne : ∀ gs, antigravityAttemptLoop bg t env urls = Except.ok gs → gs = []) :
    (antigravityAttemptLoop bg t env urls = Except.ok [] ↔
      (antigravityLoopTrace bg t env urls).any agIsOk2xx = true) ∧
    (∀ m s, antigravityAttemptLoop bg t env urls = Except.error (m, s) →
      s = (agPriorityOf (antigravityLoopTrace bg t env urls)).orElse
            (fun _ => agLastStatusOf (antigravityLoopTrace bg t env urls)) ∧
      m = agErrMsgOf t (antigravityLoopTrace bg t env urls)) := by
  refine ⟨antigravityAttemptLoop_ok_iff bg t env urls hne, ?_⟩
  intro m s h
  have hchar := antigravityAttemptLoop_error_char bg t env urls m s h
  exact ⟨hchar.2.1, hchar.2.2⟩

/-- Witness for C5: an environment of 2xx responses with no usable `models`
returns the empty group list, and the iff's right side holds concretely. -/
theorem claim_C5_witness :
    (antigravityAttemptLoop (fun _ => []) (fun k => k) agEnvC5 ["u"] = Except.ok [] ↔
      (antigravityLoopTrace (fun _ => []) (fun k => k) agEnvC5 ["u"]).any agIsOk2xx = true) ∧
    antigravityAttemptLoop (fun _ => []) (fun k => k) agEnvC5 ["u"] = Except.ok [] ∧
    (antigravityLoopTrace (fun _ => []) (fun k => k) agEnvC5 ["u"]).any agIsOk2xx = true := by
  have happ := claim_C5_empty_success (fun _ => []) (fun k => k) agEnvC5 ["u"]
    (by
      intro gs h
      have h0 : antigravityAttemptLoop (fun _ => []) (fun k => k) agEnvC5 ["u"] =
          Except.ok [] := by rfl
      rw [h0] at h
      injection h with h
      exact h.symm)
  exact ⟨happ.1, by rfl, by rfl⟩

/-- Claim C9, counterexample: with a project id only under
`installed.projectId` (camelCase) and `web.project_id`, the resolver returns
the camelCase nested value, while the claim's literal search order
(top-level `project_id`/`projectId`, then `installed.project_id`, then
`web.project_id`) would return the web value; the two differ. -/
theorem claim_C9_counterexample :
    resolveAntigravityProjectId (fun _ => some agCredC9) (Except.ok "credential-json") =
      "installed-camel-id" ∧
    claimedAntigravityProjectId (fun _ => some agCredC9) (Except.ok "credential-json") =
      "web-snake-id" ∧
    ("installed-camel-id" : String) ≠ "web-snake-id" := by
  refine ⟨by rfl, by rfl, by decide⟩

/-- Claim C9, amended: the resolver equals the amended search — per location
the snake_case key first and the camelCase key when the former is absent or
null, in the order top-level, then `installed` (under the truthy-object
guard), then `web`; the fixed default on download failure, blank text, parse
failure or exhaustion; being a total function, it never throws. -/
theorem claim_C9_project_id (parseJson : String → Option Json)
    (download : Except String String) :
    resolveAntigravityProjectId parseJson download =
      amendedAntigravityProjectId parseJson download := by
  rw [resolveAntigravityProjectId.eq_def, amendedAntigravityProjectId.eq_def]
  cases download with
  | error e => rfl
  | ok text =>
    dsimp only
    by_cases ht : (strTrim text == "") = true
    · rw [if_pos ht, if_pos ht]
    · have ht2 : (strTrim text == "") = false := by simpa using ht
      simp only [ht2, Bool.false_eq_true, if_false]
      cases parseJson (strTrim text) with
      | none => rfl
      | some parsed =>
        dsimp only
        simp only [aliasLookup, normalizeStringValue_coalesce_none]
        cases hn1 : normalizeStringValue
            (jsCoalesce (jsGet parsed "project_id") (jsGet parsed "projectId")) with
        | some s => rfl
        | none =>
          cases hn2 : (jsObjGuard (jsGet parsed "installed")).bind
              (fun o => normalizeStringValue
                (jsCoalesce (jsGet o "project_id") (jsGet o "projectId"))) with
          | some s => rfl
          | none =>
            cases hn3 : (jsObjGuard (jsGet parsed "web")).bind
                (fun o => normalizeStringValue
                  (jsCoalesce (jsGet o "project_id") (jsGet o "projectId"))) with
            | some s => rfl
            | none => rfl
